import Mathlib

/-!
Verification of the go-multihash library (src/multihash.go): a shallow
embedding of the registry, the encode/decode codec, the validating
constructor `Cast`, and the hex text conversions, together with theorems
settling the specification claims.

Byte strings (`[]byte` in Go) are modelled as `List Nat`; the predicate
`IsBytes` states every element is below 256.  Go's `int` is modelled as
`Int`, and Go's `uint8(x)` conversion as `% 256`.  Fallible functions
return `Except MHError`.
-/

set_option autoImplicit false
set_option maxRecDepth 8000

/-- Go `[]byte`: a list of byte values. -/
abbrev Bytes := List Nat

/-- Every element of the list is a byte value (below 256). -/
def IsBytes (l : Bytes) : Prop := ∀ x ∈ l, x < 256

instance (l : Bytes) : Decidable (IsBytes l) := List.decidableBAll _ l

/-- The `DecodedMultihash` struct: `Code int; Name string; Length int; Digest []byte`. -/
structure DecodedMultihash where
  Code : Int
  Name : String
  Length : Int
  Digest : Bytes
  deriving DecidableEq, Repr

/-- The error values of the package: `ErrUnknownCode`, `ErrTooShort`, `ErrTooLong`,
`ErrLenNotSupported`, `ErrInvalidMultihash`, the struct error `ErrInconsistentLen`
(which carries the partially decoded multihash), and the hex-format error that
`hex.DecodeString` can return through `FromHexString`. -/
inductive MHError where
  | unknownCode
  | tooShort
  | tooLong
  | lenNotSupported
  | invalidMultihash
  | inconsistentLen (dm : DecodedMultihash)
  | hexFormatError
  deriving DecidableEq, Repr

instance {ε α : Type} [DecidableEq ε] [DecidableEq α] : DecidableEq (Except ε α) := fun x y =>
  match x, y with
  | .error a, .error b =>
    if h : a = b then isTrue (by rw [h]) else isFalse (by intro hh; injection hh; contradiction)
  | .ok a, .ok b =>
    if h : a = b then isTrue (by rw [h]) else isFalse (by intro hh; injection hh; contradiction)
  | .error _, .ok _ => isFalse (by intro h; exact Except.noConfusion h)
  | .ok _, .error _ => isFalse (by intro h; exact Except.noConfusion h)

/-- Constant `SHA1 = 0x11`. -/
def SHA1 : Int := 0x11
/-- Constant `SHA2_256 = 0x12`. -/
def SHA2_256 : Int := 0x12
/-- Constant `SHA2_512 = 0x13`. -/
def SHA2_512 : Int := 0x13
/-- Constant `SHA3 = 0x14`. -/
def SHA3 : Int := 0x14
/-- Constant `DBL_SHA2_256 = 0x56`. -/
def DBL_SHA2_256 : Int := 0x56
/-- Constant `BLAKE2B_MIN = 0xb201`. -/
def BLAKE2B_MIN : Int := 0xb201
/-- Constant `BLAKE2B_MAX = 0xb240`. -/
def BLAKE2B_MAX : Int := 0xb240
/-- Constant `BLAKE2S_MIN = 0xb241`. -/
def BLAKE2S_MIN : Int := 0xb241
/-- Constant `BLAKE2S_MAX = 0xb260`. -/
def BLAKE2S_MAX : Int := 0xb260

/-- The five literal registry entries `(code, name, default length)` from the
`Names`/`Codes`/`DefaultLengths` map literals. -/
def baseEntries : List (Int × String × Int) :=
  [(SHA1, ("sha1", 20)),
   (SHA2_256, ("sha2-256", 32)),
   (SHA2_512, ("sha2-512", 64)),
   (SHA3, ("sha3", 64)),
   (DBL_SHA2_256, ("dbl-sha2-256", 32))]

/-- The blake2b family added by `init`: codes `BLAKE2B_MIN..BLAKE2B_MAX`
(64 codes), entry `k` being `(MIN + k, "blake2b-" ++ repr ((k+1)*8), k+1)`
(in the loop, `n = c - BLAKE2B_MIN + 1`). -/
def blake2bEntries : List (Int × String × Int) :=
  (List.range 64).map (fun (k : Nat) =>
    (BLAKE2B_MIN + (k : Int), ("blake2b-" ++ Nat.repr ((k + 1) * 8), ((k : Int) + 1))))

/-- The blake2s family added by `init`: codes `BLAKE2S_MIN..BLAKE2S_MAX`
(32 codes), same scheme relative to its own base. -/
def blake2sEntries : List (Int × String × Int) :=
  (List.range 32).map (fun (k : Nat) =>
    (BLAKE2S_MIN + (k : Int), ("blake2s-" ++ Nat.repr ((k + 1) * 8), ((k : Int) + 1))))

/-- All registry entries after `init` has run (the map literals plus both
generated families; all keys and all names are distinct, so lookup order
is irrelevant). -/
def registryEntries : List (Int × String × Int) :=
  baseEntries ++ blake2bEntries ++ blake2sEntries

/-- The `Codes` map: code to name.  `none` models a missing key. -/
def Codes (c : Int) : Option String :=
  (registryEntries.find? (fun e => decide (e.1 = c))).map (fun e => e.2.1)

/-- The `Names` map: name to code.  `none` models a missing key. -/
def Names (s : String) : Option Int :=
  (registryEntries.find? (fun e => decide (e.2.1 = s))).map (fun e => e.1)

/-- The `DefaultLengths` map: code to default digest length. -/
def DefaultLengths (c : Int) : Option Int :=
  (registryEntries.find? (fun e => decide (e.1 = c))).map (fun e => e.2.2)

/-- `AppCode`: whether a code is in the application-reserved range
(`code >= 0 && code < 0x10`). -/
def AppCode (code : Int) : Bool :=
  0 ≤ code && code < 0x10

/-- `ValidCode`: application-reserved, or present in the `Codes` map. -/
def ValidCode (code : Int) : Bool :=
  AppCode code || (Codes code).isSome

/-- `Decode`: fails `TooShort` below 3 bytes and `TooLong` above 129; otherwise
reads `Code = int(uint8(buf[0]))`, `Name = Codes[code]` (Go map miss gives `""`),
`Length = int(uint8(buf[1]))`, `Digest = buf[2:]`, and fails `ErrInconsistentLen`
(carrying the partial decode) when `len(Digest) != Length`. -/
def Decode (buf : Bytes) : Except MHError DecodedMultihash :=
  if buf.length < 3 then
    .error .tooShort
  else if 129 < buf.length then
    .error .tooLong
  else
    let dm : DecodedMultihash :=
      { Code := ((buf.getD 0 0 % 256 : Nat) : Int)
        Name := (Codes ((buf.getD 0 0 % 256 : Nat) : Int)).getD ""
        Length := ((buf.getD 1 0 % 256 : Nat) : Int)
        Digest := buf.drop 2 }
    if (dm.Digest.length : Int) ≠ dm.Length then
      .error (.inconsistentLen dm)
    else
      .ok dm

/-- `Encode`: fails `UnknownCode` when `ValidCode` is false, `LenNotSupported`
when the digest is longer than 127 bytes, and otherwise prepends
`byte(uint8(code))` and `byte(uint8(len(buf)))` to the digest. -/
def Encode (buf : Bytes) (code : Int) : Except MHError Bytes :=
  if ValidCode code = false then
    .error .unknownCode
  else if 127 < buf.length then
    .error .lenNotSupported
  else
    .ok ((code % 256).toNat :: buf.length % 256 :: buf)

/-- `EncodeName`: `Encode(buf, Names[name])`; a Go map miss yields the zero
value `0` for the code. -/
def EncodeName (buf : Bytes) (name : String) : Except MHError Bytes :=
  Encode buf ((Names name).getD 0)

/-- The `Multihash` type: validated wire bytes. -/
abbrev Multihash := Bytes

/-- `Cast`: decode, then require `ValidCode` on the decoded code; on success
returns the input bytes as a `Multihash`. -/
def Cast (buf : Bytes) : Except MHError Multihash :=
  match Decode buf with
  | .error e => .error e
  | .ok dm =>
    if ValidCode dm.Code = false then
      .error .unknownCode
    else
      .ok buf

/-- The sixteen lowercase hex digits, in value order (Go's `hextable`). -/
def hexChars : List Char :=
  "0123456789abcdef".data

/-- The hex digit character for a value below 16. -/
def hexDigit (n : Nat) : Char := hexChars.getD n '0'

/-- `hex.EncodeToString` on the underlying byte list: each byte becomes its
high nibble's digit then its low nibble's digit. -/
def hexEncodeList : Bytes → List Char
  | [] => []
  | b :: t => hexDigit (b % 256 / 16) :: hexDigit (b % 16) :: hexEncodeList t

/-- `(*Multihash).HexString`: `hex.EncodeToString(m)`. -/
def HexString (m : Multihash) : String :=
  String.mk (hexEncodeList m)

/-- Value of one hex character, as `hex.DecodeString` accepts it
(digits, lowercase and uppercase letters). -/
def hexVal (c : Char) : Option Nat :=
  if '0' ≤ c ∧ c ≤ '9' then some (c.toNat - '0'.toNat)
  else if 'a' ≤ c ∧ c ≤ 'f' then some (c.toNat - 'a'.toNat + 10)
  else if 'A' ≤ c ∧ c ≤ 'F' then some (c.toNat - 'A'.toNat + 10)
  else none

/-- `hex.DecodeString` on a character list: fails on odd length or on a
non-hex character, otherwise pairs characters into bytes. -/
def hexDecodeList : List Char → Option Bytes
  | [] => some []
  | [_] => none
  | c1 :: c2 :: rest =>
    match hexVal c1, hexVal c2, hexDecodeList rest with
    | some h, some l, some r => some ((h * 16 + l) :: r)
    | _, _, _ => none

/-- `FromHexString`: `hex.DecodeString` then `Cast`; a hex decoding error is
returned unchanged (modelled by the hex-format error kind). -/
def FromHexString (s : String) : Except MHError Multihash :=
  match hexDecodeList s.data with
  | none => .error .hexFormatError
  | some b => Cast b

/-- `strings.HasSuffix` analogue on our strings. -/
def strHasSuffix (s suf : String) : Bool :=
  suf.data.isSuffixOf s.data

/-- A character of a lowercase hexadecimal string: a decimal digit or a
lowercase letter between a and f. -/
def isLowerHexDigit (c : Char) : Prop :=
  ('0' ≤ c ∧ c ≤ '9') ∨ ('a' ≤ c ∧ c ≤ 'f')

instance (c : Char) : Decidable (isLowerHexDigit c) := by
  unfold isLowerHexDigit; infer_instance

/-! ## Helper lemmas -/

/-- On a valid code and a digest of at most 127 bytes, `Encode` succeeds and
its output is the truncated code byte, the truncated length byte, then the
digest. -/
theorem encode_ok (d : Bytes) (c : Int) (hlen : d.length ≤ 127) (hc : ValidCode c = true) :
    Encode d c = .ok ((c % 256).toNat :: d.length % 256 :: d) := by
  unfold Encode
  rw [hc]
  simp [Nat.not_lt.mpr hlen]

/-- `Decode` on an explicit cons-cons buffer whose tail is nonempty and at
most 127 bytes reduces to the consistency test. -/
theorem decode_cons_ok (b0 b1 : Nat) (rest : Bytes) (h1 : 1 ≤ rest.length)
    (h2 : rest.length ≤ 127) (hlen : rest.length = b1 % 256) :
    Decode (b0 :: b1 :: rest) =
      .ok { Code := ((b0 % 256 : Nat) : Int)
          , Name := (Codes ((b0 % 256 : Nat) : Int)).getD ""
          , Length := ((b1 % 256 : Nat) : Int)
          , Digest := rest } := by
  unfold Decode
  have hA : ¬ ((b0 :: b1 :: rest).length < 3) := by simp; omega
  have hB : ¬ (129 < (b0 :: b1 :: rest).length) := by simp; omega
  rw [if_neg hA, if_neg hB]
  simp only [List.getD_cons_zero, List.getD_cons_succ, List.drop_succ_cons, List.drop_zero]
  rw [if_neg]
  simp only [ne_eq, Decidable.not_not]
  exact_mod_cast hlen

/-- `Decode` on an explicit cons-cons buffer whose tail length disagrees
with the length byte fails with the inconsistent-length error. -/
theorem decode_cons_inconsistent (b0 b1 : Nat) (rest : Bytes) (h1 : 1 ≤ rest.length)
    (h2 : rest.length ≤ 127) (hlen : rest.length ≠ b1 % 256) :
    Decode (b0 :: b1 :: rest) =
      .error (.inconsistentLen
        { Code := ((b0 % 256 : Nat) : Int)
        , Name := (Codes ((b0 % 256 : Nat) : Int)).getD ""
        , Length := ((b1 % 256 : Nat) : Int)
        , Digest := rest }) := by
  unfold Decode
  have hA : ¬ ((b0 :: b1 :: rest).length < 3) := by simp; omega
  have hB : ¬ (129 < (b0 :: b1 :: rest).length) := by simp; omega
  rw [if_neg hA, if_neg hB]
  simp only [List.getD_cons_zero, List.getD_cons_succ, List.drop_succ_cons, List.drop_zero]
  rw [if_pos]
  exact fun h => hlen (by exact_mod_cast h)

/-- A successful `Cast` returns its input buffer. -/
theorem cast_ok_eq {b w : Bytes} (h : Cast b = .ok w) : w = b := by
  unfold Cast at h
  cases hd : Decode b with
  | error e => rw [hd] at h; cases h
  | ok dm =>
    rw [hd] at h
    have h2 : (if ValidCode dm.Code = false then (Except.error MHError.unknownCode : Except MHError Multihash)
        else .ok b) = .ok w := h
    by_cases hv : ValidCode dm.Code = false
    · rw [if_pos hv] at h2; cases h2
    · rw [if_neg hv] at h2; exact (Except.ok.inj h2).symm

/-- `hexVal` inverts `hexDigit` on nibble values. -/
theorem hexVal_hexDigit : ∀ n : Nat, n < 16 → hexVal (hexDigit n) = some n := by decide

/-- `hexDigit` produces a lowercase hexadecimal character on nibble values. -/
theorem hexDigit_lower : ∀ n : Nat, n < 16 → isLowerHexDigit (hexDigit n) := by decide

/-- Hex decoding inverts hex encoding on byte lists. -/
theorem hexDecode_hexEncode (l : Bytes) (hl : IsBytes l) :
    hexDecodeList (hexEncodeList l) = some l := by
  induction l with
  | nil => rfl
  | cons b t ih =>
    have hb : b < 256 := hl b (by simp)
    have ht : IsBytes t := fun x hx => hl x (by simp [hx])
    have h1 : hexVal (hexDigit (b % 256 / 16)) = some (b % 256 / 16) :=
      hexVal_hexDigit _ (by omega)
    have h2 : hexVal (hexDigit (b % 16)) = some (b % 16) :=
      hexVal_hexDigit _ (by omega)
    rw [hexEncodeList, hexDecodeList, h1, h2, ih ht]
    have hbv : b % 256 / 16 * 16 + b % 16 = b := by omega
    show some ((b % 256 / 16 * 16 + b % 16) :: t) = some (b :: t)
    rw [hbv]

/-- Hex encoding doubles the length. -/
theorem hexEncodeList_length (l : Bytes) : (hexEncodeList l).length = 2 * l.length := by
  induction l with
  | nil => rfl
  | cons b t ih => rw [hexEncodeList]; simp [ih]; omega

/-- Every character hex encoding produces is a lowercase hex digit. -/
theorem hexEncodeList_lower (l : Bytes) : ∀ c ∈ hexEncodeList l, isLowerHexDigit c := by
  induction l with
  | nil => intro c hc; cases hc
  | cons b t ih =>
    intro c hc
    rw [hexEncodeList] at hc
    simp only [List.mem_cons] at hc
    rcases hc with h | h | h
    · subst h; exact hexDigit_lower _ (by omega)
    · subst h; exact hexDigit_lower _ (by omega)
    · exact ih c h

/-! ## Claim theorems -/

/-- C1 counterexample: with the empty digest and the valid code `0x11`,
`Encode` succeeds but produces the two-byte value `[0x11, 0x00]`, which
`Decode` rejects with `TooShort`; so `Decode (Encode d c)` does not succeed
for every digest of length at most 127. -/
theorem C1_empty_digest_cex :
    Encode ([] : Bytes) 0x11 = .ok [0x11, 0x00] ∧
    Decode [0x11, 0x00] = .error .tooShort := by decide

/-- C1 (amended): for every digest `d` with `1 ≤ len d ≤ 127` and every code
`c` with `ValidCode c`, `Decode (Encode d c)` succeeds and the decoded result
has `Digest = d` and `Length = len d`. -/
theorem C1_round_trip :
    ∀ (d : Bytes) (c : Int), 1 ≤ d.length → d.length ≤ 127 → ValidCode c = true →
    ∃ w, Encode d c = .ok w ∧
      ∃ dm, Decode w = .ok dm ∧ dm.Digest = d ∧ dm.Length = (d.length : Int) := by
  intro d c h1 h127 hc
  refine ⟨(c % 256).toNat :: d.length % 256 :: d, encode_ok d c h127 hc, ?_⟩
  refine ⟨_, decode_cons_ok ((c % 256).toNat) (d.length % 256) d h1 h127 (by omega), rfl, ?_⟩
  show ((d.length % 256 % 256 : Nat) : Int) = (d.length : Int)
  have hm : d.length % 256 % 256 = d.length := by omega
  rw [hm]

/-- C1 witness: the round trip at digest `[0xAA]` and code `0x11`. -/
theorem C1_round_trip_witness :
    ∃ w, Encode [0xAA] 0x11 = .ok w ∧
      ∃ dm, Decode w = .ok dm ∧ dm.Digest = [0xAA] ∧
        dm.Length = (([0xAA] : Bytes).length : Int) :=
  C1_round_trip [0xAA] 0x11 (by decide) (by decide) (by decide)

/-- C2 counterexample: both two-byte inputs of the claim are rejected with
`TooShort` by the decode step that `Cast` runs first, so `Cast [0x99, 0x00]`
does not fail with `UnknownCode`, and `Cast [0x05, 0x00]` does not succeed. -/
theorem C2_cast_cex :
    Cast [0x99, 0x00] = .error .tooShort ∧
    Cast [0x05, 0x00] = .error .tooShort := by decide

/-- C2 (amended): `Cast [0x99, 0x00]` and `Cast [0x05, 0x00]` both fail with
`TooShort` (inputs under 3 bytes never reach the code check); on the minimal
3-byte analogues, `Cast [0x99, 0x01, 0x00]` fails with `UnknownCode` while
`Cast [0x05, 0x01, 0x00]` succeeds (0x05 being application-reserved) and
decodes to the one-byte digest `[0x00]` with an empty name. -/
theorem C2_cast_amended :
    Cast [0x99, 0x00] = .error .tooShort ∧
    Cast [0x05, 0x00] = .error .tooShort ∧
    Cast [0x99, 0x01, 0x00] = .error .unknownCode ∧
    Cast [0x05, 0x01, 0x00] = .ok [0x05, 0x01, 0x00] ∧
    Decode [0x05, 0x01, 0x00] =
      .ok { Code := 0x05, Name := "", Length := 1, Digest := [0x00] } := by decide

/-- C3 counterexample: for the unregistered name used here, `EncodeName`
succeeds (the Go map miss yields code 0, which is application-reserved)
instead of failing with `UnknownCode`. -/
theorem C3_encode_name_cex :
    EncodeName [0xAA] "not-a-registered-hash" = .ok [0x00, 0x01, 0xAA] := by decide

/-- C3 (amended): for every digest `d` and every name absent from the name
table, the name resolves to the sentinel code 0, which is
application-reserved, so `EncodeName` never fails with `UnknownCode`: it
returns `[0x00, len d mod 256] ++ d` when `len d ≤ 127` and fails with
`LengthNotSupported` otherwise. -/
theorem C3_encode_name_amended :
    ∀ (d : Bytes) (name : String), Names name = none →
    EncodeName d name =
      if 127 < d.length then .error .lenNotSupported
      else .ok (0 :: d.length % 256 :: d) := by
  intro d name hn
  unfold EncodeName
  rw [hn]
  show Encode d 0 = _
  have hv : ValidCode 0 = true := by decide
  by_cases hl : 127 < d.length
  · rw [if_pos hl]
    unfold Encode
    rw [hv]
    simp [hl]
  · rw [if_neg hl]
    exact encode_ok d 0 (by omega) hv

/-- C3 witness: the amended claim at digest `[0xBB]` and name `"blake3"`,
which is not in the registry. -/
theorem C3_encode_name_witness :
    EncodeName [0xBB] "blake3" =
      if 127 < ([0xBB] : Bytes).length then .error .lenNotSupported
      else .ok (0 :: ([0xBB] : Bytes).length % 256 :: [0xBB]) :=
  C3_encode_name_amended [0xBB] "blake3" (by decide)

/-- C4: for every digest `d` with `len d ≤ 127` and valid code `c`, `Encode`
succeeds and returns exactly the code truncated mod 256, the length mod 256,
then the digest verbatim. -/
theorem C4_encode_bytes :
    ∀ (d : Bytes) (c : Int), d.length ≤ 127 → ValidCode c = true →
    Encode d c = .ok ((c % 256).toNat :: d.length % 256 :: d) :=
  fun d c h hc => encode_ok d c h hc

/-- C4 witness: the concrete example of the claim,
`Encode [0xAA, 0xBB, 0xCC, 0xDD] 0x11 = [0x11, 0x04, 0xAA, 0xBB, 0xCC, 0xDD]`. -/
theorem C4_encode_bytes_witness :
    Encode [0xAA, 0xBB, 0xCC, 0xDD] 0x11 = .ok [0x11, 0x04, 0xAA, 0xBB, 0xCC, 0xDD] := by
  have h := C4_encode_bytes [0xAA, 0xBB, 0xCC, 0xDD] 0x11 (by decide) (by decide)
  rw [h]
  rfl

/-- C5: for every byte sequence `b` with `3 ≤ len b ≤ 129` whose length byte
`b[1]` equals `len b - 2`, `Decode` succeeds and returns `Code = b[0]`,
`Name` the registry name for that code (empty string when unknown —
`Decode` does not fail on an unknown code), `Length = b[1]`, and
`Digest = b[2:]`. -/
theorem C5_decode_success :
    ∀ b : Bytes, IsBytes b → 3 ≤ b.length → b.length ≤ 129 → b.getD 1 0 = b.length - 2 →
    Decode b = .ok { Code := ((b.getD 0 0 : Nat) : Int)
                   , Name := (Codes ((b.getD 0 0 : Nat) : Int)).getD ""
                   , Length := ((b.getD 1 0 : Nat) : Int)
                   , Digest := b.drop 2 } := by
  intro b hb h3 h129 hlb
  cases b with
  | nil => simp at h3
  | cons b0 t =>
    cases t with
    | nil => simp at h3
    | cons b1 rest =>
      have hb0 : b0 < 256 := hb b0 (by simp)
      have hb1 : b1 < 256 := hb b1 (by simp)
      have hlen : (b0 :: b1 :: rest).length = rest.length + 2 := by simp
      simp only [List.getD_cons_zero, List.getD_cons_succ, List.drop_succ_cons,
        List.drop_zero] at hlb ⊢
      rw [hlen] at hlb h3 h129
      have hrl : rest.length = b1 % 256 := by omega
      rw [decode_cons_ok b0 b1 rest (by omega) (by omega) hrl]
      rw [Nat.mod_eq_of_lt hb0, Nat.mod_eq_of_lt hb1]

/-- C5 witness: decoding `[0x11, 0x02, 0xAA, 0xBB]` yields code `0x11`,
name `"sha1"`, length 2, and digest `[0xAA, 0xBB]`. -/
theorem C5_decode_success_witness :
    Decode [0x11, 0x02, 0xAA, 0xBB] =
      .ok { Code := 0x11, Name := "sha1", Length := 2, Digest := [0xAA, 0xBB] } := by
  have h := C5_decode_success [0x11, 0x02, 0xAA, 0xBB] (by decide) (by decide) (by decide)
    (by decide)
  rw [h]
  rfl

/-- C6: `Decode` fails with `TooShort` on fewer than 3 bytes, with `TooLong`
on more than 129 bytes, and with `InconsistentLength` — whose error value
carries the partially decoded code, name, length and digest — when the
length is in range but the length byte `b[1]` disagrees with the digest
byte count `len b - 2`; and these are the only ways `Decode` fails. -/
theorem C6_decode_failures :
    (∀ b : Bytes, b.length < 3 → Decode b = .error .tooShort) ∧
    (∀ b : Bytes, 129 < b.length → Decode b = .error .tooLong) ∧
    (∀ b : Bytes, IsBytes b → 3 ≤ b.length → b.length ≤ 129 → b.getD 1 0 ≠ b.length - 2 →
      Decode b = .error (.inconsistentLen
        { Code := ((b.getD 0 0 : Nat) : Int)
        , Name := (Codes ((b.getD 0 0 : Nat) : Int)).getD ""
        , Length := ((b.getD 1 0 : Nat) : Int)
        , Digest := b.drop 2 })) ∧
    (∀ (b : Bytes) (e : MHError), Decode b = .error e →
      (b.length < 3 ∧ e = .tooShort) ∨ (129 < b.length ∧ e = .tooLong) ∨
      (∃ dm, e = .inconsistentLen dm)) := by
  refine ⟨?_, ?_, ?_, ?_⟩
  · intro b h
    unfold Decode
    rw [if_pos h]
  · intro b h
    unfold Decode
    rw [if_neg (by omega), if_pos h]
  · intro b hb h3 h129 hlb
    cases b with
    | nil => simp at h3
    | cons b0 t =>
      cases t with
      | nil => simp at h3
      | cons b1 rest =>
        have hb0 : b0 < 256 := hb b0 (by simp)
        have hb1 : b1 < 256 := hb b1 (by simp)
        have hlen : (b0 :: b1 :: rest).length = rest.length + 2 := by simp
        simp only [List.getD_cons_zero, List.getD_cons_succ, List.drop_succ_cons,
          List.drop_zero] at hlb ⊢
        rw [hlen] at hlb h3 h129
        have hrl : rest.length ≠ b1 % 256 := by omega
        rw [decode_cons_inconsistent b0 b1 rest (by omega) (by omega) hrl]
        rw [Nat.mod_eq_of_lt hb0, Nat.mod_eq_of_lt hb1]
  · intro b e h
    unfold Decode at h
    by_cases hA : b.length < 3
    · rw [if_pos hA] at h
      exact Or.inl ⟨hA, (Except.error.inj h).symm⟩
    · rw [if_neg hA] at h
      by_cases hB : 129 < b.length
      · rw [if_pos hB] at h
        exact Or.inr (Or.inl ⟨hB, (Except.error.inj h).symm⟩)
      · rw [if_neg hB] at h
        have h2 : (if (((b.drop 2).length : Int) ≠ ((b.getD 1 0 % 256 : Nat) : Int))
            then (Except.error (MHError.inconsistentLen
              { Code := ((b.getD 0 0 % 256 : Nat) : Int)
              , Name := (Codes ((b.getD 0 0 % 256 : Nat) : Int)).getD ""
              , Length := ((b.getD 1 0 % 256 : Nat) : Int)
              , Digest := b.drop 2 }) : Except MHError DecodedMultihash)
            else .ok { Code := ((b.getD 0 0 % 256 : Nat) : Int)
                     , Name := (Codes ((b.getD 0 0 % 256 : Nat) : Int)).getD ""
                     , Length := ((b.getD 1 0 % 256 : Nat) : Int)
                     , Digest := b.drop 2 }) = .error e := h
        by_cases hC : (((b.drop 2).length : Int) ≠ ((b.getD 1 0 % 256 : Nat) : Int))
        · rw [if_pos hC] at h2
          exact Or.inr (Or.inr ⟨_, (Except.error.inj h2).symm⟩)
        · rw [if_neg hC] at h2
          cases h2

/-- C6 witness: a 2-byte input is `TooShort`, a 130-byte input is `TooLong`,
and `[0x11, 0x05, 0x01, 0x02]` (length byte 5, two digest bytes) is rejected
with the inconsistent-length error carrying the partial decode. -/
theorem C6_decode_failures_witness :
    Decode [0x11, 0x05] = .error .tooShort ∧
    Decode (List.replicate 130 0) = .error .tooLong ∧
    Decode [0x11, 0x05, 0x01, 0x02] = .error (.inconsistentLen
      { Code := 0x11, Name := "sha1", Length := 5, Digest := [0x01, 0x02] }) := by
  refine ⟨C6_decode_failures.1 [0x11, 0x05] (by decide),
    C6_decode_failures.2.1 (List.replicate 130 0) (by decide), ?_⟩
  have h := C6_decode_failures.2.2.1 [0x11, 0x05, 0x01, 0x02] (by decide) (by decide)
    (by decide) (by decide)
  rw [h]
  rfl

/-- C7: `Encode` fails with `UnknownCode` whenever the code is neither
application-reserved nor in the registry; for a valid code it fails with
`LengthNotSupported` whenever the digest exceeds 127 bytes and succeeds for
a 127-byte digest; and these are the only failure modes. -/
theorem C7_encode_failures :
    (∀ (d : Bytes) (c : Int), AppCode c = false → Codes c = none →
      Encode d c = .error .unknownCode) ∧
    (∀ (d : Bytes) (c : Int), ValidCode c = true → 127 < d.length →
      Encode d c = .error .lenNotSupported) ∧
    (∀ (d : Bytes) (c : Int), ValidCode c = true → d.length = 127 →
      ∃ w, Encode d c = .ok w) ∧
    (∀ (d : Bytes) (c : Int) (e : MHError), Encode d c = .error e →
      e = .unknownCode ∨ e = .lenNotSupported) := by
  refine ⟨?_, ?_, ?_, ?_⟩
  · intro d c happ hcodes
    have hv : ValidCode c = false := by
      unfold ValidCode
      rw [happ, hcodes]
      rfl
    unfold Encode
    rw [hv]
    simp
  · intro d c hc h127
    unfold Encode
    rw [hc]
    simp [h127]
  · intro d c hc h127
    exact ⟨_, encode_ok d c (by omega) hc⟩
  · intro d c e h
    unfold Encode at h
    by_cases hv : ValidCode c = false
    · rw [if_pos hv] at h
      exact Or.inl (Except.error.inj h).symm
    · rw [if_neg hv] at h
      by_cases hl : 127 < d.length
      · rw [if_pos hl] at h
        exact Or.inr (Except.error.inj h).symm
      · rw [if_neg hl] at h
        cases h

/-- C7 witness: `Encode [0x01] 0x99` is `UnknownCode`, a 128-byte digest with
code `0x11` is `LengthNotSupported`, and a 127-byte digest with code `0x11`
succeeds. -/
theorem C7_encode_failures_witness :
    Encode [0x01] 0x99 = .error .unknownCode ∧
    Encode (List.replicate 128 0) 0x11 = .error .lenNotSupported ∧
    (∃ w, Encode (List.replicate 127 0) 0x11 = .ok w) :=
  ⟨C7_encode_failures.1 [0x01] 0x99 (by decide) (by decide),
   C7_encode_failures.2.1 (List.replicate 128 0) 0x11 (by decide) (by decide),
   C7_encode_failures.2.2.1 (List.replicate 127 0) 0x11 (by decide) (by decide)⟩

/-- C8: for every valid wire value `v` (a byte sequence accepted by `Cast`),
`FromHexString (HexString v)` succeeds and returns `v`; moreover `HexString`
produces lowercase hexadecimal of exactly `2 * len v` characters. -/
theorem C8_hex_round_trip :
    ∀ v : Bytes, IsBytes v → (∃ w, Cast v = .ok w) →
    FromHexString (HexString v) = .ok v ∧
    (HexString v).length = 2 * v.length ∧
    ∀ c ∈ (HexString v).data, isLowerHexDigit c := by
  intro v hv hc
  obtain ⟨w, hw⟩ := hc
  have hwv : w = v := cast_ok_eq hw
  rw [hwv] at hw
  refine ⟨?_, ?_, ?_⟩
  · show FromHexString (HexString v) = .ok v
    unfold FromHexString HexString
    rw [show (String.mk (hexEncodeList v)).data = hexEncodeList v from rfl]
    rw [hexDecode_hexEncode v hv]
    exact hw
  · show (String.mk (hexEncodeList v)).length = 2 * v.length
    rw [show (String.mk (hexEncodeList v)).length = (hexEncodeList v).length from rfl]
    exact hexEncodeList_length v
  · intro ch hch
    exact hexEncodeList_lower v ch hch

/-- C8 witness: the hex round trip on the valid wire value `[0x11, 0x01, 0xAA]`. -/
theorem C8_hex_round_trip_witness :
    FromHexString (HexString [0x11, 0x01, 0xAA]) = .ok [0x11, 0x01, 0xAA] ∧
    (HexString [0x11, 0x01, 0xAA]).length = 2 * ([0x11, 0x01, 0xAA] : Bytes).length ∧
    ∀ c ∈ (HexString [0x11, 0x01, 0xAA]).data, isLowerHexDigit c :=
  C8_hex_round_trip [0x11, 0x01, 0xAA] (by decide) ⟨[0x11, 0x01, 0xAA], by decide⟩

/-- C9: after registry initialization, each generated code at offset `k` in
its family range maps to the name `<family>-<(k+1)*8>` with default length
`k+1`; in particular `0xb201` maps to a name ending in `-8` with default
length 1, `0xb240` to a name ending in `-512` with default length 64,
`0xb241` to a name ending in `-8` with default length 1, and `0xb260` to a
name ending in `-256` with default length 32. -/
theorem C9_generated_families :
    (∀ k : Nat, k < 64 →
      Codes (0xb201 + (k : Int)) = some ("blake2b-" ++ Nat.repr ((k + 1) * 8)) ∧
      DefaultLengths (0xb201 + (k : Int)) = some ((k : Int) + 1)) ∧
    (∀ k : Nat, k < 32 →
      Codes (0xb241 + (k : Int)) = some ("blake2s-" ++ Nat.repr ((k + 1) * 8)) ∧
      DefaultLengths (0xb241 + (k : Int)) = some ((k : Int) + 1)) ∧
    strHasSuffix ((Codes 0xb201).getD "") "-8" = true ∧ DefaultLengths 0xb201 = some 1 ∧
    strHasSuffix ((Codes 0xb240).getD "") "-512" = true ∧ DefaultLengths 0xb240 = some 64 ∧
    strHasSuffix ((Codes 0xb241).getD "") "-8" = true ∧ DefaultLengths 0xb241 = some 1 ∧
    strHasSuffix ((Codes 0xb260).getD "") "-256" = true ∧ DefaultLengths 0xb260 = some 32 := by
  refine ⟨by decide, by decide, by decide, by decide, by decide, by decide, by decide,
    by decide, by decide, by decide⟩

/-- C9 witness: the generated-family scheme instantiated at offset 0 of each
family. -/
theorem C9_generated_families_witness :
    Codes 0xb201 = some "blake2b-8" ∧ DefaultLengths 0xb201 = some 1 ∧
    Codes 0xb241 = some "blake2s-8" ∧ DefaultLengths 0xb241 = some 1 := by
  refine ⟨?_, ?_, ?_, ?_⟩
  · exact (C9_generated_families.1 0 (by decide)).1
  · exact (C9_generated_families.1 0 (by decide)).2
  · exact (C9_generated_families.2.1 0 (by decide)).1
  · exact (C9_generated_families.2.1 0 (by decide)).2

/-- C10: whenever `Decode` succeeds, the returned value satisfies
`0 ≤ Code ≤ 255`, `0 ≤ Length ≤ 127`, and `len Digest = Length`. -/
theorem C10_decode_invariant :
    ∀ (b : Bytes) (dm : DecodedMultihash), Decode b = .ok dm →
    0 ≤ dm.Code ∧ dm.Code ≤ 255 ∧ 0 ≤ dm.Length ∧ dm.Length ≤ 127 ∧
    (dm.Digest.length : Int) = dm.Length := by
  intro b dm h
  unfold Decode at h
  by_cases hA : b.length < 3
  · rw [if_pos hA] at h
    cases h
  · rw [if_neg hA] at h
    by_cases hB : 129 < b.length
    · rw [if_pos hB] at h
      cases h
    · rw [if_neg hB] at h
      have h2 : (if (((b.drop 2).length : Int) ≠ ((b.getD 1 0 % 256 : Nat) : Int))
          then (Except.error (MHError.inconsistentLen
            { Code := ((b.getD 0 0 % 256 : Nat) : Int)
            , Name := (Codes ((b.getD 0 0 % 256 : Nat) : Int)).getD ""
            , Length := ((b.getD 1 0 % 256 : Nat) : Int)
            , Digest := b.drop 2 }) : Except MHError DecodedMultihash)
          else .ok { Code := ((b.getD 0 0 % 256 : Nat) : Int)
                   , Name := (Codes ((b.getD 0 0 % 256 : Nat) : Int)).getD ""
                   , Length := ((b.getD 1 0 % 256 : Nat) : Int)
                   , Digest := b.drop 2 }) = .ok dm := h
      by_cases hC : (((b.drop 2).length : Int) ≠ ((b.getD 1 0 % 256 : Nat) : Int))
      · rw [if_pos hC] at h2
        cases h2
      · rw [if_neg hC] at h2
        have hdm := Except.ok.inj h2
        have e1 : (b.drop 2).length = b.length - 2 := List.length_drop 2 b
        have e2 : ((b.drop 2).length : Int) = ((b.getD 1 0 % 256 : Nat) : Int) :=
          not_ne_iff.mp hC
        rw [← hdm]
        have hm : b.getD 0 0 % 256 < 256 := Nat.mod_lt _ (by omega)
        refine ⟨?_, ?_, ?_, ?_, ?_⟩
        · show (0 : Int) ≤ ((b.getD 0 0 % 256 : Nat) : Int)
          omega
        · show ((b.getD 0 0 % 256 : Nat) : Int) ≤ 255
          omega
        · show (0 : Int) ≤ ((b.getD 1 0 % 256 : Nat) : Int)
          omega
        · show ((b.getD 1 0 % 256 : Nat) : Int) ≤ 127
          omega
        · show ((b.drop 2).length : Int) = ((b.getD 1 0 % 256 : Nat) : Int)
          exact e2

/-- C10 witness: the invariant on the value decoded from `[0x11, 0x01, 0xAA]`. -/
theorem C10_decode_invariant_witness :
    0 ≤ (DecodedMultihash.mk 0x11 "sha1" 1 [0xAA]).Code ∧
    (DecodedMultihash.mk 0x11 "sha1" 1 [0xAA]).Code ≤ 255 ∧
    0 ≤ (DecodedMultihash.mk 0x11 "sha1" 1 [0xAA]).Length ∧
    (DecodedMultihash.mk 0x11 "sha1" 1 [0xAA]).Length ≤ 127 ∧
    (((DecodedMultihash.mk 0x11 "sha1" 1 [0xAA]).Digest.length : Int)) =
      (DecodedMultihash.mk 0x11 "sha1" 1 [0xAA]).Length :=
  C10_decode_invariant [0x11, 0x01, 0xAA] (DecodedMultihash.mk 0x11 "sha1" 1 [0xAA])
    (by decide)
